import Mathlib

/-!
Shallow embedding of `src/annotate_snps.py` (MIDAS SNP annotation).

Conventions of the embedding:
* Python strings are `String`; nucleotide sequences are `List Char`.
  Python's `<`/`>` on strings is code-point lexicographic, modelled as
  the lexicographic order on the underlying character lists
  (`a.data < b.data`), which is propositionally the same relation as
  `String.lt` but evaluates by structural recursion.
* Python `dict` lookups that can raise `KeyError` are `Option`-valued;
  a `none` result models the interpreter aborting with an uncaught
  exception.  Likewise `z[i] = y` on an out-of-range index.
* Positions are `Nat` (1-based genomic coordinates, as in the source).
  Subtractions that the source performs on Python ints are `Nat`
  truncated subtraction; every call site that reaches them guarantees
  the minuend is at least the subtrahend (site within gene bounds), so
  the values agree with the source.
* In-place mutation of the `site` dict is modelled by returning an
  updated `Site` record.
-/

namespace MIDAS

/-- A contig map: Python dict from accession to nucleotide sequence
(`genome[r.id] = r.seq` in `read_genome`). -/
abbrev Genome := List (String × List Char)

/-- A gene record as produced by `read_genes`: fields `accession`,
`start`, `end` (1-based, inclusive), `strand`, `gene_id`.  `end` is a
Lean keyword, so the field is named `end_`. -/
structure Gene where
  accession : String
  start : Nat
  end_ : Nat
  strand : Char
  gene_id : String
deriving Repr, DecidableEq

/-- A raw site record from the snp list stream (`utility.parse_file`):
`ref_id`, `ref_pos`, `ref_allele`.  `ref_pos` is already numeric here;
the source's `int(site['ref_pos'])` conversion in `init_site` is the
identity in this model. -/
structure SnpRec where
  ref_id : String
  ref_pos : Nat
  ref_allele : Char
deriving Repr, DecidableEq

/-- The mutable `site` dict after `init_site`: the snp fields plus
`gene_id`, `site_type` and the `snp_types` dict.  The `snp_types` dict
has exactly the keys `'A','T','C','G'`; it is modelled as a total
function consulted only at those keys. -/
structure Site where
  ref_id : String
  ref_pos : Nat
  ref_allele : Char
  gene_id : String
  site_type : String
  snp_types : Char → String

/-- `init_site`: sets `gene_id` to `"NA"`, `site_type` to `"NC"` and all
four `snp_types` values to `"NA"`. -/
def init_site (s : SnpRec) : Site :=
  { ref_id := s.ref_id
  , ref_pos := s.ref_pos
  , ref_allele := s.ref_allele
  , gene_id := "NA"
  , site_type := "NC"
  , snp_types := fun _ => "NA" }

/-- The complement dict `d` in `rev_comp`; any character outside
`{A,T,G,C,N}` raises `KeyError` in the source, modelled by `none`. -/
def compChar : Char → Option Char
  | 'A' => some 'T'
  | 'T' => some 'A'
  | 'G' => some 'C'
  | 'C' => some 'G'
  | 'N' => some 'N'
  | _ => none

/-- `rev_comp`: reverse the sequence and complement each character. -/
def rev_comp (seq : List Char) : Option (List Char) :=
  seq.reverse.mapM compChar

/-- `get_gene_seq`: `genome[gene['accession']][gene['start']-1:gene['end']].upper()`,
reverse-complemented when the strand is `'-'`.  A missing accession is a
`KeyError` (`none`). -/
def get_gene_seq (gene : Gene) (genome : Genome) : Option (List Char) := do
  let contig ← genome.lookup gene.accession
  let seq := ((contig.drop (gene.start - 1)).take (gene.end_ - (gene.start - 1))).map Char.toUpper
  if gene.strand = '-' then rev_comp seq else pure seq

/-- The codon table of `translate`, keyed by 3-letter codon strings. -/
def codontable : List (String × Char) :=
  [ ("ATA",'I'), ("ATC",'I'), ("ATT",'I'), ("ATG",'M')
  , ("ACA",'T'), ("ACC",'T'), ("ACG",'T'), ("ACT",'T')
  , ("AAC",'N'), ("AAT",'N'), ("AAA",'K'), ("AAG",'K')
  , ("AGC",'S'), ("AGT",'S'), ("AGA",'R'), ("AGG",'R')
  , ("CTA",'L'), ("CTC",'L'), ("CTG",'L'), ("CTT",'L')
  , ("CCA",'P'), ("CCC",'P'), ("CCG",'P'), ("CCT",'P')
  , ("CAC",'H'), ("CAT",'H'), ("CAA",'Q'), ("CAG",'Q')
  , ("CGA",'R'), ("CGC",'R'), ("CGG",'R'), ("CGT",'R')
  , ("GTA",'V'), ("GTC",'V'), ("GTG",'V'), ("GTT",'V')
  , ("GCA",'A'), ("GCC",'A'), ("GCG",'A'), ("GCT",'A')
  , ("GAC",'D'), ("GAT",'D'), ("GAA",'E'), ("GAG",'E')
  , ("GGA",'G'), ("GGC",'G'), ("GGG",'G'), ("GGT",'G')
  , ("TCA",'S'), ("TCC",'S'), ("TCG",'S'), ("TCT",'S')
  , ("TTC",'F'), ("TTT",'F'), ("TTA",'L'), ("TTG",'L')
  , ("TAC",'Y'), ("TAT",'Y'), ("TAA",'_'), ("TAG",'_')
  , ("TGC",'C'), ("TGT",'C'), ("TGA",'_'), ("TGG",'W') ]

/-- `translate`: look the codon up in the table; a codon that is not a
key (wrong length, or containing a character outside `{A,C,G,T}`)
raises `KeyError` in the source, modelled by `none`. -/
def translate (codon : List Char) : Option Char :=
  codontable.lookup (String.mk codon)

/-- `index_replace(x, y, i)`: replace the character at index `i` of `x`
by `y`.  The source's `z[i] = y` raises `IndexError` when `i` is out of
range, modelled by `none`. -/
def index_replace (x : List Char) (y : Char) (i : Nat) : Option (List Char) :=
  if i < x.length then some (x.set i y) else none

/-- Point update of the `snp_types` dict. -/
def updateSnp (m : Char → String) (k : Char) (v : String) : Char → String :=
  fun x => if x = k then v else m x

/-- `classify_site`: if the reference codon contains `'N'` the site type
becomes `"N"`; otherwise each of the four alleles is substituted at the
codon position, the substituted codon is translated and compared with
the reference amino acid, `snp_types` is filled with `"SYN"`/`"NS"`, and
`site_type` becomes the count of `"SYN"` values in the dict followed by
`"D"`. -/
def classify_site (site : Site) (ref_codon : List Char) (codon_pos : Nat) : Option Site :=
  if 'N' ∈ ref_codon then
    some { site with site_type := "N" }
  else do
    let ref_aa ← translate ref_codon
    let snps ← ['A','T','C','G'].foldlM (fun m alt_allele => do
        let alt_codon ← index_replace ref_codon alt_allele codon_pos
        let alt_aa ← translate alt_codon
        pure (updateSnp m alt_allele (if alt_aa = ref_aa then "SYN" else "NS"))) site.snp_types
    some { site with
             snp_types := snps
           , site_type := toString ([snps 'A', snps 'T', snps 'C', snps 'G'].count "SYN") ++ "D" }

/-- `fetch_ref_codon`: gene-relative position (`ref_pos - start` on the
`'+'` strand, `end - ref_pos` otherwise), codon-internal offset
`gene_pos % 3`, and the slice `seq[gene_pos-codon_pos : gene_pos-codon_pos+3]`
of the oriented gene sequence. -/
def fetch_ref_codon (site : Site) (gene : Gene) (genome : Genome) :
    Option (List Char × Nat) := do
  let gene_pos := if gene.strand = '+' then site.ref_pos - gene.start else gene.end_ - site.ref_pos
  let codon_pos := gene_pos % 3
  let seq ← get_gene_seq gene genome
  pure ((seq.drop (gene_pos - codon_pos)).take 3, codon_pos)

/-- Python's `str.split(sep)` for a one-character separator, on
character lists. -/
def pySplit (sep : Char) : List Char → List (List Char)
  | [] => [[]]
  | c :: rest =>
    match pySplit sep rest with
    | [] => [[]]
    | grp :: gs => if c = sep then [] :: grp :: gs else (c :: grp) :: gs

/-- `gene['gene_id'].split('|')[-1]`: the last group of the split. -/
def pySplitLast (sep : Char) (s : String) : String :=
  String.mk ((pySplit sep s.data).getLastD [])

/-- The `while True` loop of `annotate_site`, recursing over the suffix
`genes[gene_index:]` of the gene list.  Returns the (possibly crashed)
site together with the number of times the loop executed
`gene_index = gene_index + 1`. -/
def annotate_site_go (site : Site) (genome : Genome) : List Gene → Option Site × Nat
  | [] => (some site, 0)
  | gene :: rest =>
    if site.ref_id.data < gene.accession.data ∨
        (site.ref_id = gene.accession ∧ site.ref_pos < gene.start) then
      (some site, 0)
    else if site.ref_id.data > gene.accession.data ∨
        (site.ref_id = gene.accession ∧ site.ref_pos > gene.end_) then
      let r := annotate_site_go site genome rest
      (r.1, r.2 + 1)
    else
      match fetch_ref_codon site gene genome with
      | none => (none, 0)
      | some (ref_codon, codon_pos) =>
        (classify_site { site with gene_id := pySplitLast '|' gene.gene_id } ref_codon codon_pos, 0)

/-- `annotate_site`, also reporting the final value of the callee-local
`gene_index` variable.  When `ref_allele == 'N'` the loop is skipped and
the cursor is untouched. -/
def annotate_site_run (site : Site) (genes : List Gene) (genome : Genome) (gene_index : Nat) :
    Option Site × Nat :=
  if site.ref_allele = 'N' then (some { site with site_type := "N" }, gene_index)
  else
    let r := annotate_site_go site genome (genes.drop gene_index)
    (r.1, gene_index + r.2)

/-- `annotate_site`: the annotated site (`none` models an uncaught
exception aborting the run). -/
def annotate_site (site : Site) (genes : List Gene) (genome : Genome) (gene_index : Nat) :
    Option Site :=
  (annotate_site_run site genes genome gene_index).1

/-- `write_site`: the tab-separated row, as its list of cell values. -/
def write_site (site : Site) : List String :=
  [site.ref_id, toString site.ref_pos, String.mk [site.ref_allele], site.gene_id, site.site_type]
    ++ (['A','T','C','G'].map fun snp => site.snp_types snp)

/-- The `for i, site in enumerate(...)` loop of `main`.  `gene_index` is
the variable `main` initialises to `0` before the loop: Python passes
the int by value, `annotate_site` rebinds only its local copy, and
`main` never reassigns it, so the same value is handed to every call.
`max_sites = 0` models a falsy `args['max_sites']` (absent or zero); the
cap check runs after the row for index `i` is written. -/
def main_go (genes : List Gene) (genome : Genome) (max_sites : Nat) (gene_index : Nat) :
    Nat → List SnpRec → Option (List (List String))
  | _, [] => some []
  | i, s :: rest => do
    let site ← annotate_site (init_site s) genes genome gene_index
    let row := write_site site
    if max_sites ≠ 0 ∧ i ≥ max_sites then
      some [row]
    else do
      let rows ← main_go genes genome max_sites gene_index (i + 1) rest
      some (row :: rows)

/-- `main`'s per-site pipeline over the whole site stream, starting with
`gene_index = 0` and `i = 0`. -/
def main_run (sites : List SnpRec) (genes : List Gene) (genome : Genome) (max_sites : Nat) :
    Option (List (List String)) :=
  main_go genes genome max_sites 0 0 sites

/-- Gene-cursor trace of `main`'s loop (no cap): for each site, the
cursor value handed to `annotate_site` and the final value of the
callee's local `gene_index`.  As in `main_go`, the value handed over is
the same `gene_index` for every site because the callee's increments
never reach `main`. -/
def main_trace (genes : List Gene) (genome : Genome) (gene_index : Nat) :
    List SnpRec → List (Nat × Nat)
  | [] => []
  | s :: rest =>
    (gene_index, (annotate_site_run (init_site s) genes genome gene_index).2)
      :: main_trace genes genome gene_index rest

/-- The loop of `check_snps`.  In the source `last_snp` is initialised
to `{'ref_id': 'accn|NZ_DS499510'}` and is never reassigned inside the
loop, so every record is compared to that constant. -/
def check_snps_go (last_ref : String) : List SnpRec → Except String Unit
  | [] => .ok ()
  | snp :: rest =>
    if snp.ref_id.data < last_ref.data then .error "Accessions not sorted"
    else check_snps_go last_ref rest

/-- `check_snps` on an explicit record stream. -/
def check_snps (snps : List SnpRec) : Except String Unit :=
  check_snps_go "accn|NZ_DS499510" snps

/-- The loop of `check_genes`, threading `last_gene`'s accession (here
`last_gene` is reassigned each iteration).  The source's membership
test reads a variable `genome` that is not bound at module scope (the
parameter is spelled `genomes`), so an actual call would raise
`NameError`; the map intended for that test is passed explicitly. -/
def check_genes_go (genome : Genome) (last_acc : String) : List Gene → Except String Unit
  | [] => .ok ()
  | gene :: rest =>
    if (genome.lookup gene.accession).isNone then .error "Incorrect scaffold id"
    else if (gene.end_ - gene.start + 1) % 3 ≠ 0 then .error "Incorrect gene length"
    else if gene.accession.data < last_acc.data then .error "Accessions not sorted"
    else check_genes_go genome gene.accession rest

/-- `check_genes` with the initial `last_gene` accession constant. -/
def check_genes (genes : List Gene) (genome : Genome) : Except String Unit :=
  check_genes_go genome "accn|NZ_DS499510" genes

/-! ## Specification-side predicates -/

/-- The four unambiguous nucleotide letters, in the iteration order of
`classify_site`. -/
def alleles : List Char := ['A', 'T', 'C', 'G']

/-- The contig alphabet. -/
def nucl : List Char := ['A', 'C', 'G', 'T', 'N']

/-- Gene `g` owns position `pos` on contig `rid`: matching accession and
`start ≤ pos ≤ end` (1-based inclusive). -/
def GeneContains (g : Gene) (rid : String) (pos : Nat) : Prop :=
  g.accession = rid ∧ g.start ≤ pos ∧ pos ≤ g.end_

/-- The gene list is sorted by `(accession, start)`, lexicographically. -/
def GenesSorted (genes : List Gene) : Prop :=
  genes.Pairwise fun g h =>
    g.accession.data < h.accession.data ∨ (g.accession = h.accession ∧ g.start ≤ h.start)

/-- No two genes of the list overlap on a common contig. -/
def NoOverlap (genes : List Gene) : Prop :=
  genes.Pairwise fun g h =>
    g.accession = h.accession → (g.end_ < h.start ∨ h.end_ < g.start)

/-- The site stream is sorted by `(ref_id, ref_pos)`. -/
def SitesSorted (sites : List SnpRec) : Prop :=
  sites.Pairwise fun s t =>
    s.ref_id.data < t.ref_id.data ∨ (s.ref_id = t.ref_id ∧ s.ref_pos ≤ t.ref_pos)

/-- A gene record satisfying the data-model invariants: its accession is
in the contig map, coordinates are 1-based with `start ≤ end` and `end`
within the contig, its length is a multiple of 3, and the contig is an
uppercase `{A,C,G,T,N}` string. -/
def ValidGene (genome : Genome) (g : Gene) : Prop :=
  ∃ contig, genome.lookup g.accession = some contig ∧
    1 ≤ g.start ∧ g.start ≤ g.end_ ∧ g.end_ ≤ contig.length ∧
    (g.end_ - g.start + 1) % 3 = 0 ∧
    ∀ c ∈ contig, c ∈ nucl

end MIDAS

namespace MIDAS

/-! ## Helper lemmas about the alphabet and sequence extraction -/

/-- Total companion of `compChar`, agreeing with it on the contig
alphabet. -/
def compFn (c : Char) : Char := (compChar c).getD 'N'

lemma compChar_eq_compFn (c : Char) (h : c ∈ nucl) : compChar c = some (compFn c) := by
  simp only [nucl, List.mem_cons, List.not_mem_nil, or_false] at h
  rcases h with rfl | rfl | rfl | rfl | rfl <;> rfl

lemma compFn_mem_nucl (c : Char) (h : c ∈ nucl) : compFn c ∈ nucl := by
  simp only [nucl, List.mem_cons, List.not_mem_nil, or_false] at h ⊢
  rcases h with rfl | rfl | rfl | rfl | rfl <;> decide

lemma toUpper_nucl (c : Char) (h : c ∈ nucl) : c.toUpper = c := by
  simp only [nucl, List.mem_cons, List.not_mem_nil, or_false] at h
  rcases h with rfl | rfl | rfl | rfl | rfl <;> decide

lemma alleles_sub_nucl (c : Char) (h : c ∈ alleles) : c ∈ nucl := by
  simp only [alleles, List.mem_cons, List.not_mem_nil, or_false] at h
  rcases h with rfl | rfl | rfl | rfl <;> decide

lemma mem_alleles_of_nucl (c : Char) (h : c ∈ nucl) (hN : c ≠ 'N') : c ∈ alleles := by
  simp only [nucl, List.mem_cons, List.not_mem_nil, or_false] at h
  rcases h with rfl | rfl | rfl | rfl | rfl <;> simp_all [alleles]

lemma mapM_compChar (l : List Char) (h : ∀ c ∈ l, c ∈ nucl) :
    l.mapM compChar = some (l.map compFn) := by
  induction l with
  | nil => rfl
  | cons c rest ih =>
    rw [List.mapM_cons, compChar_eq_compFn c (h c (by simp)),
      ih fun x hx => h x (by simp [hx])]
    rfl

lemma rev_comp_eq (l : List Char) (h : ∀ c ∈ l, c ∈ nucl) :
    rev_comp l = some (l.reverse.map compFn) := by
  unfold rev_comp
  exact mapM_compChar _ fun c hc => h c (List.mem_reverse.mp hc)

/-- On valid inputs, `get_gene_seq` succeeds and returns a sequence of
the gene's length over the contig alphabet. -/
lemma seq_of_valid (g : Gene) (genome : Genome) (hv : ValidGene genome g) :
    ∃ seq, get_gene_seq g genome = some seq ∧
      seq.length = g.end_ - g.start + 1 ∧ ∀ c ∈ seq, c ∈ nucl := by
  obtain ⟨contig, hlook, h1, hse, hlen, _, hchar⟩ := hv
  have hsl_chars : ∀ c ∈ (contig.drop (g.start - 1)).take (g.end_ - (g.start - 1)), c ∈ nucl :=
    fun c hc => hchar c (List.mem_of_mem_drop (List.mem_of_mem_take hc))
  have hupper :
      ((contig.drop (g.start - 1)).take (g.end_ - (g.start - 1))).map Char.toUpper
        = (contig.drop (g.start - 1)).take (g.end_ - (g.start - 1)) := by
    rw [show ((contig.drop (g.start - 1)).take (g.end_ - (g.start - 1))).map Char.toUpper
          = ((contig.drop (g.start - 1)).take (g.end_ - (g.start - 1))).map id from
        List.map_congr_left fun a ha => toUpper_nucl a (hsl_chars a ha)]
    exact List.map_id _
  have hsl_len : ((contig.drop (g.start - 1)).take (g.end_ - (g.start - 1))).length
      = g.end_ - g.start + 1 := by
    simp only [List.length_take, List.length_drop]
    omega
  by_cases hstr : g.strand = '-'
  · refine ⟨((contig.drop (g.start - 1)).take (g.end_ - (g.start - 1))).reverse.map compFn,
      ?_, by simpa using hsl_len, ?_⟩
    · simp only [get_gene_seq, hlook, Option.bind_eq_bind, Option.some_bind, hstr, if_pos,
        hupper]
      exact rev_comp_eq _ hsl_chars
    · intro c hc
      simp only [List.mem_map, List.mem_reverse] at hc
      obtain ⟨x, hx, rfl⟩ := hc
      exact compFn_mem_nucl x (hsl_chars x hx)
  · refine ⟨(contig.drop (g.start - 1)).take (g.end_ - (g.start - 1)), ?_, hsl_len, hsl_chars⟩
    simp only [get_gene_seq, hlook, Option.bind_eq_bind, Option.some_bind, hstr, if_neg,
      hupper, ite_false]
    rfl

/-- The gene-relative position computed on the first line of
`fetch_ref_codon` (and stated by the spec's codon locator). -/
def gene_rel_pos (site : Site) (g : Gene) : Nat :=
  if g.strand = '+' then site.ref_pos - g.start else g.end_ - site.ref_pos

lemma gene_rel_pos_lt (site : Site) (g : Gene)
    (hcont : GeneContains g site.ref_id site.ref_pos) :
    gene_rel_pos site g < g.end_ - g.start + 1 := by
  obtain ⟨-, hp1, hp2⟩ := hcont
  unfold gene_rel_pos
  split <;> omega

/-- On a valid gene containing the site, `fetch_ref_codon` succeeds and
returns a length-3 codon over the contig alphabet together with the
codon-internal offset. -/
lemma fetch_of_valid (site : Site) (g : Gene) (genome : Genome)
    (hv : ValidGene genome g) (hcont : GeneContains g site.ref_id site.ref_pos) :
    ∃ seq c, get_gene_seq g genome = some seq ∧
      fetch_ref_codon site g genome = some (c, gene_rel_pos site g % 3) ∧
      c = (seq.drop (gene_rel_pos site g - gene_rel_pos site g % 3)).take 3 ∧
      c.length = 3 ∧ ∀ x ∈ c, x ∈ nucl := by
  obtain ⟨seq, hseq, hlen, hchars⟩ := seq_of_valid g genome hv
  have hdiv : (g.end_ - g.start + 1) % 3 = 0 := by
    obtain ⟨contig, -, -, -, -, hdiv, -⟩ := hv
    exact hdiv
  have hgp := gene_rel_pos_lt site g hcont
  refine ⟨seq, (seq.drop (gene_rel_pos site g - gene_rel_pos site g % 3)).take 3, hseq, ?_, rfl,
    ?_, ?_⟩
  · simp only [fetch_ref_codon, gene_rel_pos, hseq, Option.bind_eq_bind, Option.some_bind]
    rfl
  · simp only [List.length_take, List.length_drop, hlen]
    omega
  · intro x hx
    exact hchars x (List.mem_of_mem_drop (List.mem_of_mem_take hx))

end MIDAS

namespace MIDAS

/-- C1: REFUTED on the code — the spec claims the gene cursor persists
across sites (never reset between sites, total advances at most
genes + N), but `main` passes its `gene_index` int by value and never
receives the callee's increments back, so every `annotate_site` call
starts from the same cursor.  On three genes followed by two
past-all-genes sites, both calls start at cursor 0, each advances 3
times, and the total of 6 advances exceeds genes + N = 3 + 2. -/
theorem C1_cursor_reset_between_sites :
    main_trace [⟨"c", 1, 3, '+', "a"⟩, ⟨"c", 4, 6, '+', "b"⟩, ⟨"c", 7, 9, '+', "d"⟩]
        [("c", ['A'])] 0 [⟨"c", 10, 'A'⟩, ⟨"c", 11, 'A'⟩] = [(0, 3), (0, 3)] ∧
    ((([(0, 3), (0, 3)] : List (Nat × Nat)).map fun p => p.2 - p.1).sum = 6 ∧
      ¬ (6 ≤ 3 + 2)) := by
  refine ⟨by decide, by decide, by decide⟩

/-- C5: REFUTED on the code — `main` never invokes `check_snps` or
`check_genes`, so a run does not abort on precondition violations.  On
an out-of-order site stream the (uncalled) `check_snps` would in any
case report no error, because the source never updates `last_snp`
inside its loop; `main` annotates and writes both rows.  Likewise a
gene of length 4 (not a multiple of 3) is processed and its site row
written, although `check_genes` — had it been called, and had its
body's reference to the unbound name `genome` resolved — would have
reported "Incorrect gene length". -/
theorem C5_precondition_checks_not_invoked :
    ¬ SitesSorted [⟨"c", 1, 'A'⟩, ⟨"b", 1, 'A'⟩] ∧
    check_snps [⟨"c", 1, 'A'⟩, ⟨"b", 1, 'A'⟩] = .ok () ∧
    (main_run [⟨"c", 1, 'A'⟩, ⟨"b", 1, 'A'⟩] [] [] 0).map List.length = some 2 ∧
    check_genes [⟨"c", 1, 4, '+', "g"⟩] [("c", "AAAAA".data)] = .error "Incorrect gene length" ∧
    (main_run [⟨"c", 5, 'A'⟩] [⟨"c", 1, 4, '+', "g"⟩] [("c", "AAAAA".data)] 0).map List.length
      = some 1 := by
  refine ⟨?_, rfl, rfl, rfl, rfl⟩
  intro h
  rcases (List.pairwise_cons.mp h).1 ⟨"b", 1, 'A'⟩ (by simp) with h1 | ⟨h2, -⟩
  · exact absurd h1 (by decide)
  · exact absurd h2 (by decide)

/-- Row count of the `main` loop from arbitrary loop state: with a zero
(falsy) cap every remaining site yields a row; with a nonzero cap the
loop still writes the row of index `max_sites` before breaking. -/
lemma main_go_length (genes : List Gene) (genome : Genome) (k gi : Nat) (sites : List SnpRec) :
    ∀ (i : Nat) (rows : List (List String)),
      main_go genes genome k gi i sites = some rows →
      rows.length = if k = 0 then sites.length else min sites.length (k - i + 1) := by
  induction sites with
  | nil =>
    intro i rows h
    simp only [main_go, Option.some.injEq] at h
    subst h
    simp
  | cons s rest ih =>
    intro i rows h
    simp only [main_go, Option.bind_eq_bind, Option.bind_eq_some] at h
    obtain ⟨site, -, h2⟩ := h
    by_cases hcap : k ≠ 0 ∧ i ≥ k
    · rw [if_pos hcap] at h2
      simp only [Option.some.injEq] at h2
      subst h2
      simp only [List.length_cons, List.length_nil]
      rw [if_neg hcap.1]
      omega
    · rw [if_neg hcap] at h2
      simp only [Option.bind_eq_some, Option.some.injEq] at h2
      obtain ⟨rows', hrec, rfl⟩ := h2
      have hlen := ih (i + 1) rows' hrec
      by_cases hk : k = 0
      · rw [if_pos hk] at hlen ⊢
        simp [hlen]
      · rw [if_neg hk] at hlen ⊢
        simp only [List.length_cons, hlen]
        omega

/-- C9: when `max_sites` is a truthy value `k` and the stream holds more
than `k` sites, the loop writes the row of 0-based index `k` before
breaking, producing exactly `k + 1` rows; when `max_sites` is falsy
(absent or 0), every site is written. -/
theorem C9_max_sites_off_by_one (sites : List SnpRec) (genes : List Gene) (genome : Genome)
    (k : Nat) (rows : List (List String))
    (h : main_run sites genes genome k = some rows) :
    (k ≠ 0 → sites.length > k → rows.length = k + 1) ∧
    (k = 0 → rows.length = sites.length) := by
  have hlen := main_go_length genes genome k 0 sites 0 rows h
  constructor
  · intro hk hbig
    rw [if_neg hk] at hlen
    omega
  · intro hk
    rw [if_pos hk] at hlen
    exact hlen

/-- Witness for C9 at a concrete input: cap 1 on a 3-site stream yields
2 rows; cap 0 yields 3 rows. -/
theorem C9_witness :
    (∃ rows, main_run [⟨"c", 1, 'A'⟩, ⟨"c", 2, 'A'⟩, ⟨"c", 3, 'A'⟩] [] [] 1 = some rows ∧
      rows.length = 1 + 1) ∧
    (∃ rows, main_run [⟨"c", 1, 'A'⟩, ⟨"c", 2, 'A'⟩, ⟨"c", 3, 'A'⟩] [] [] 0 = some rows ∧
      rows.length = 3) := by
  constructor
  · cases h : main_run [⟨"c", 1, 'A'⟩, ⟨"c", 2, 'A'⟩, ⟨"c", 3, 'A'⟩] [] [] 1 with
    | none => exact absurd h (by decide)
    | some rows =>
      exact ⟨rows, rfl,
        (C9_max_sites_off_by_one _ _ _ _ _ h).1 (by decide) (by decide)⟩
  · cases h : main_run [⟨"c", 1, 'A'⟩, ⟨"c", 2, 'A'⟩, ⟨"c", 3, 'A'⟩] [] [] 0 with
    | none => exact absurd h (by decide)
    | some rows =>
      exact ⟨rows, rfl, (C9_max_sites_off_by_one _ _ _ _ _ h).2 rfl⟩

end MIDAS

namespace MIDAS

/-! ## The degeneracy classifier on valid codons -/

lemma alleles_ne_N (a : Char) (h : a ∈ alleles) : a ≠ 'N' := by
  simp only [alleles, List.mem_cons, List.not_mem_nil, or_false] at h
  rcases h with rfl | rfl | rfl | rfl <;> decide

lemma translate_total :
    ∀ b0 ∈ alleles, ∀ b1 ∈ alleles, ∀ b2 ∈ alleles, (translate [b0, b1, b2]).isSome := by
  decide

lemma translate_valid (c : List Char) (hlen : c.length = 3) (hc : ∀ x ∈ c, x ∈ alleles) :
    ∃ aa, translate c = some aa := by
  obtain ⟨b0, b1, b2, rfl⟩ := List.length_eq_three.mp hlen
  exact Option.isSome_iff_exists.mp
    (translate_total b0 (hc _ (by simp)) b1 (hc _ (by simp)) b2 (hc _ (by simp)))

lemma set_mem_alleles (c : List Char) (pos : Nat) (a : Char)
    (hc : ∀ x ∈ c, x ∈ alleles) (ha : a ∈ alleles) : ∀ x ∈ c.set pos a, x ∈ alleles :=
  fun x hx => (List.mem_or_eq_of_mem_set hx).elim (hc x) fun h => h ▸ ha

lemma count_syn_ites (p q r s : Prop) [Decidable p] [Decidable q] [Decidable r] [Decidable s] :
    ([if p then "SYN" else "NS", if q then "SYN" else "NS",
      if r then "SYN" else "NS", if s then "SYN" else "NS"] : List String).count "SYN"
      = ((if p then 1 else 0) + (if q then 1 else 0) + (if r then 1 else 0)
          + (if s then 1 else 0) : Nat) := by
  by_cases hp : p <;> by_cases hq : q <;> by_cases hr : r <;> by_cases hs : s <;>
    simp [hp, hq, hr, hs, List.count_cons]

lemma countP_alleles (f : Char → Bool) :
    alleles.countP f = ((if f 'A' then 1 else 0) + (if f 'T' then 1 else 0)
      + (if f 'C' then 1 else 0) + (if f 'G' then 1 else 0) : Nat) := by
  by_cases hA : f 'A' <;> by_cases hT : f 'T' <;> by_cases hC : f 'C' <;> by_cases hG : f 'G' <;>
    simp [alleles, List.countP_cons, hA, hT, hC, hG]

/-- On a valid length-3 codon over `{A,T,C,G}` and an in-range codon
position, `classify_site` succeeds; it preserves every other field,
fills `snp_types` with the synonymy verdict of each allele's
substitution, and writes the `"SYN"`-count followed by `"D"` as the
site type. -/
lemma classify_site_valid (site : Site) (c : List Char) (pos : Nat)
    (hlen : c.length = 3) (hc : ∀ x ∈ c, x ∈ alleles) (hpos : pos < 3) :
    ∃ r, classify_site site c pos = some r ∧
      r.ref_id = site.ref_id ∧ r.ref_pos = site.ref_pos ∧
      r.ref_allele = site.ref_allele ∧ r.gene_id = site.gene_id ∧
      (∀ a ∈ alleles, r.snp_types a =
        if translate (c.set pos a) = translate c then "SYN" else "NS") ∧
      r.site_type =
        toString (alleles.countP fun a => translate (c.set pos a) == translate c) ++ "D" := by
  have hN : 'N' ∉ c := fun h => absurd (hc _ h) (by decide)
  obtain ⟨aa, haa⟩ := translate_valid c hlen hc
  have hposlen : pos < c.length := by omega
  have hset : ∀ a : Char, index_replace c a pos = some (c.set pos a) := by
    intro a
    simp [index_replace, hposlen]
  obtain ⟨aaA, hA⟩ := translate_valid (c.set pos 'A') (by simp [hlen])
    (set_mem_alleles c pos 'A' hc (by decide))
  obtain ⟨aaT, hT⟩ := translate_valid (c.set pos 'T') (by simp [hlen])
    (set_mem_alleles c pos 'T' hc (by decide))
  obtain ⟨aaC, hC⟩ := translate_valid (c.set pos 'C') (by simp [hlen])
    (set_mem_alleles c pos 'C' hc (by decide))
  obtain ⟨aaG, hG⟩ := translate_valid (c.set pos 'G') (by simp [hlen])
    (set_mem_alleles c pos 'G' hc (by decide))
  rw [classify_site, if_neg hN]
  simp only [Option.bind_eq_bind, haa, Option.some_bind, List.foldlM_cons, List.foldlM_nil,
    hset, hA, hT, hC, hG, Option.pure_def, Option.some_bind]
  refine ⟨_, rfl, rfl, rfl, rfl, rfl, ?_, ?_⟩
  · intro a ha
    simp only [alleles, List.mem_cons, List.not_mem_nil, or_false] at ha
    rcases ha with rfl | rfl | rfl | rfl <;>
      simp [updateSnp, hA, hT, hC, hG, haa]
  · simp [updateSnp, hA, hT, hC, hG, haa, count_syn_ites, countP_alleles, beq_iff_eq]

end MIDAS

namespace MIDAS

/-- C7: for a coding site with an unambiguous reference codon, the site
type is one of 1D/2D/3D/4D and its numeric prefix is exactly the number
of alleles (out of all four, including the reference-identity no-op)
whose substitution at the codon offset translates to the same amino
acid as the reference codon. -/
theorem C7_degeneracy_bounds (site : Site) (c : List Char) (pos : Nat)
    (hlen : c.length = 3) (hc : ∀ x ∈ c, x ∈ alleles) (hpos : pos < 3) :
    ∃ r n, classify_site site c pos = some r ∧
      r.site_type = toString n ++ "D" ∧ 1 ≤ n ∧ n ≤ 4 ∧
      n = alleles.countP (fun a => translate (c.set pos a) == translate c) ∧
      (r.site_type = "1D" ∨ r.site_type = "2D" ∨ r.site_type = "3D" ∨ r.site_type = "4D") := by
  obtain ⟨r, hcl, -, -, -, -, -, htype⟩ := classify_site_valid site c pos hlen hc hpos
  have hposlen : pos < c.length := by omega
  have hone : 0 < alleles.countP (fun a => translate (c.set pos a) == translate c) := by
    rw [List.countP_pos_iff]
    refine ⟨c.get ⟨pos, hposlen⟩, hc _ (List.get_mem c pos hposlen), ?_⟩
    have hself : c.set pos (c.get ⟨pos, hposlen⟩) = c := by
      obtain ⟨b0, b1, b2, rfl⟩ := List.length_eq_three.mp hlen
      interval_cases pos <;> rfl
    rw [hself]
    simp
  have hle : alleles.countP (fun a => translate (c.set pos a) == translate c) ≤ 4 := by
    simpa [alleles] using
      List.countP_le_length (l := alleles) (p := fun a => translate (c.set pos a) == translate c)
  refine ⟨r, _, hcl, htype, hone, hle, rfl, ?_⟩
  set n := alleles.countP (fun a => translate (c.set pos a) == translate c) with hn
  interval_cases n
  · exact Or.inl (by rw [htype]; rfl)
  · exact Or.inr (Or.inl (by rw [htype]; rfl))
  · exact Or.inr (Or.inr (Or.inl (by rw [htype]; rfl)))
  · exact Or.inr (Or.inr (Or.inr (by rw [htype]; rfl)))

/-- Witness for C7: the spec's own scenario codon `"AAA"` at offset 0
(`1D`: only the no-op substitution is synonymous). -/
theorem C7_witness :
    ∃ r n, classify_site (init_site ⟨"chr1", 1, 'A'⟩) ['A', 'A', 'A'] 0 = some r ∧
      r.site_type = toString n ++ "D" ∧ 1 ≤ n ∧ n ≤ 4 ∧
      n = alleles.countP
        (fun a => translate ((['A', 'A', 'A'] : List Char).set 0 a) == translate ['A', 'A', 'A']) ∧
      (r.site_type = "1D" ∨ r.site_type = "2D" ∨ r.site_type = "3D" ∨ r.site_type = "4D") :=
  C7_degeneracy_bounds (init_site ⟨"chr1", 1, 'A'⟩) ['A', 'A', 'A'] 0 rfl (by decide) (by decide)

lemma typeD_ne (n : Nat) (s : String) (hs : s.data.getLast? ≠ some 'D') :
    toString n ++ "D" ≠ s := by
  intro h
  apply hs
  rw [← h, String.data_append]
  exact List.getLast?_concat _

/-- `classify_site` on a codon containing `'N'` only stamps the site
type. -/
lemma classify_site_N (site : Site) (c : List Char) (pos : Nat) (hN : 'N' ∈ c) :
    classify_site site c pos = some { site with site_type := "N" } := by
  rw [classify_site, if_pos hN]

/-- Whenever `classify_site` succeeds, it preserves the identifying
fields, and either stamps `"N"` (ambiguous codon, `snp_types`
untouched) or fills all four `snp_types` entries with `"SYN"`/`"NS"`
and writes a count-`"D"` site type. -/
lemma classify_success_shape (site : Site) (c : List Char) (pos : Nat) (r : Site)
    (h : classify_site site c pos = some r) :
    r.gene_id = site.gene_id ∧ r.ref_id = site.ref_id ∧ r.ref_pos = site.ref_pos ∧
    r.ref_allele = site.ref_allele ∧
    (('N' ∈ c ∧ r.site_type = "N" ∧ r.snp_types = site.snp_types) ∨
     ('N' ∉ c ∧ (∃ n : Nat, r.site_type = toString n ++ "D") ∧
       ∀ a ∈ alleles, r.snp_types a = "SYN" ∨ r.snp_types a = "NS")) := by
  by_cases hN : 'N' ∈ c
  · rw [classify_site_N site c pos hN] at h
    simp only [Option.some.injEq] at h
    subst h
    exact ⟨rfl, rfl, rfl, rfl, Or.inl ⟨hN, rfl, rfl⟩⟩
  · rw [classify_site, if_neg hN] at h
    simp only [Option.bind_eq_bind, Option.bind_eq_some, List.foldlM_cons, List.foldlM_nil,
      Option.pure_def, Option.some.injEq] at h
    obtain ⟨ref_aa, -, snps,
      ⟨m1, ⟨cA, -, aA, -, hm1⟩, m2, ⟨cT, -, aT, -, hm2⟩, m3, ⟨cC, -, aC, -, hm3⟩,
        m4, ⟨cG, -, aG, -, hm4⟩, hm5⟩, hrec⟩ := h
    subst hm1 hm2 hm3 hm4 hm5 hrec
    refine ⟨rfl, rfl, rfl, rfl, Or.inr ⟨hN, ⟨_, rfl⟩, ?_⟩⟩
    intro a ha
    simp only [alleles, List.mem_cons, List.not_mem_nil, or_false] at ha
    rcases ha with rfl | rfl | rfl | rfl <;>
      · simp only [updateSnp]
        simp
        exact em _

end MIDAS

namespace MIDAS

/-! ## The merge loop -/

/-- If neither the "site precedes gene" nor the "site follows gene" test
of the loop fires, the site lies inside the gene's interval on the
gene's contig. -/
lemma contains_of_not_before_not_after (site : Site) (g : Gene)
    (h1 : ¬ (site.ref_id.data < g.accession.data ∨
      (site.ref_id = g.accession ∧ site.ref_pos < g.start)))
    (h2 : ¬ (site.ref_id.data > g.accession.data ∨
      (site.ref_id = g.accession ∧ site.ref_pos > g.end_))) :
    GeneContains g site.ref_id site.ref_pos := by
  push_neg at h1 h2
  obtain ⟨h1a, h1b⟩ := h1
  obtain ⟨h2a, h2b⟩ := h2
  have heq : g.accession = site.ref_id :=
    String.toList_inj.mp (le_antisymm h1a h2a)
  exact ⟨heq, h1b heq.symm, h2b heq.symm⟩

/-- If no gene of the remaining list contains the site, the loop leaves
the site untouched (either it runs off the end of the list or stops at
a gene the site precedes). -/
lemma annotate_go_not_found (site : Site) (genome : Genome) :
    ∀ l : List Gene, (∀ g ∈ l, ¬ GeneContains g site.ref_id site.ref_pos) →
      (annotate_site_go site genome l).1 = some site := by
  intro l
  induction l with
  | nil => intro _; rfl
  | cons g0 rest ih =>
    intro hnone
    simp only [annotate_site_go]
    by_cases h1 : site.ref_id.data < g0.accession.data ∨
        (site.ref_id = g0.accession ∧ site.ref_pos < g0.start)
    · rw [if_pos h1]
    · rw [if_neg h1]
      by_cases h2 : site.ref_id.data > g0.accession.data ∨
          (site.ref_id = g0.accession ∧ site.ref_pos > g0.end_)
      · rw [if_pos h2]
        exact ih fun g hg => hnone g (List.mem_cons_of_mem g0 hg)
      · exact absurd (contains_of_not_before_not_after site g0 h1 h2)
          (hnone g0 (List.mem_cons_self g0 rest))

/-- Under sorted, non-overlapping genes, the loop reaches the gene that
contains the site and hands the site to the codon locator and the
classifier, with the gene's processed id installed. -/
lemma annotate_go_found (site : Site) (genome : Genome) :
    ∀ (l : List Gene) (g : Gene),
      List.Pairwise (fun a b => a.accession.data < b.accession.data ∨
        (a.accession = b.accession ∧ a.start ≤ b.start)) l →
      List.Pairwise (fun a b => a.accession = b.accession →
        (a.end_ < b.start ∨ b.end_ < a.start)) l →
      g ∈ l → GeneContains g site.ref_id site.ref_pos →
      (annotate_site_go site genome l).1 =
        (match fetch_ref_codon site g genome with
         | none => none
         | some (c, cp) =>
           classify_site { site with gene_id := pySplitLast '|' g.gene_id } c cp) := by
  intro l
  induction l with
  | nil => intro g _ _ hg; exact absurd hg (List.not_mem_nil g)
  | cons g0 rest ih =>
    intro g hs ho hg hcont
    obtain ⟨hacc, hp1, hp2⟩ := hcont
    simp only [annotate_site_go]
    rcases List.mem_cons.mp hg with rfl | hgrest
    · have h1 : ¬ (site.ref_id.data < g.accession.data ∨
          (site.ref_id = g.accession ∧ site.ref_pos < g.start)) := by
        rw [hacc]
        push_neg
        exact ⟨le_refl _, fun _ => hp1⟩
      have h2 : ¬ (site.ref_id.data > g.accession.data ∨
          (site.ref_id = g.accession ∧ site.ref_pos > g.end_)) := by
        rw [hacc]
        push_neg
        exact ⟨le_refl _, fun _ => hp2⟩
      rw [if_neg h1, if_neg h2]
      cases hf : fetch_ref_codon site g genome with
      | none => simp [hf]
      | some p =>
        obtain ⟨c, cp⟩ := p
        simp [hf]
    · have hrel := (List.pairwise_cons.mp hs).1 g hgrest
      have hdisj := (List.pairwise_cons.mp ho).1 g hgrest
      have h1 : ¬ (site.ref_id.data < g0.accession.data ∨
          (site.ref_id = g0.accession ∧ site.ref_pos < g0.start)) := by
        rintro (hlt | ⟨heq, hpos⟩)
        · rcases hrel with hlt' | ⟨heq', -⟩
          · rw [← hacc] at hlt
            exact absurd (hlt.trans hlt') (lt_irrefl _)
          · rw [← hacc, heq'] at hlt
            exact absurd hlt (lt_irrefl _)
        · rcases hrel with hlt' | ⟨heq', hst⟩
          · rw [hacc, heq] at hlt'
            exact absurd hlt' (lt_irrefl _)
          · omega
      rw [if_neg h1]
      by_cases h2 : site.ref_id.data > g0.accession.data ∨
          (site.ref_id = g0.accession ∧ site.ref_pos > g0.end_)
      · rw [if_pos h2]
        exact ih g (List.Pairwise.of_cons hs) (List.Pairwise.of_cons ho) hgrest
          ⟨hacc, hp1, hp2⟩
      · exfalso
        obtain ⟨heq0, hq1, hq2⟩ := contains_of_not_before_not_after site g0 h1 h2
        have := hdisj (by rw [heq0, hacc])
        omega

/-- Non-overlapping genes: at most one gene of the list contains a given
position. -/
lemma contains_unique (genes : List Gene) (ho : NoOverlap genes) (rid : String) (pos : Nat) :
    ∀ g ∈ genes, ∀ h ∈ genes, GeneContains g rid pos → GeneContains h rid pos → g = h := by
  intro g hg h hh hcg hch
  by_contra hne
  have hsymm : Symmetric fun a b : Gene =>
      a.accession = b.accession → (a.end_ < b.start ∨ b.end_ < a.start) :=
    fun a b hab heq => (hab heq.symm).symm
  have hdisj := List.Pairwise.forall hsymm ho hg hh hne
  obtain ⟨ha, hp1, hp2⟩ := hcg
  obtain ⟨hb, hq1, hq2⟩ := hch
  have := hdisj (by rw [ha, hb])
  omega

/-- Every successful run of the loop either returns the site unchanged
or returns the classifier's output for some gene of the list. -/
lemma annotate_go_cases (site : Site) (genome : Genome) :
    ∀ (l : List Gene) (r : Site), (annotate_site_go site genome l).1 = some r →
      r = site ∨ ∃ g ∈ l, ∃ c cp, fetch_ref_codon site g genome = some (c, cp) ∧
        classify_site { site with gene_id := pySplitLast '|' g.gene_id } c cp = some r := by
  intro l
  induction l with
  | nil =>
    intro r h
    simp only [annotate_site_go, Option.some.injEq] at h
    exact Or.inl h.symm
  | cons g0 rest ih =>
    intro r h
    simp only [annotate_site_go] at h
    split_ifs at h with h1 h2
    · simp only [Option.some.injEq] at h
      exact Or.inl h.symm
    · rcases ih r h with h' | ⟨g, hg, c, cp, hf, hcls⟩
      · exact Or.inl h'
      · exact Or.inr ⟨g, List.mem_cons_of_mem g0 hg, c, cp, hf, hcls⟩
    · cases hf : fetch_ref_codon site g0 genome with
      | none => rw [hf] at h; simp at h
      | some p =>
        obtain ⟨c, cp⟩ := p
        rw [hf] at h
        exact Or.inr ⟨g0, List.mem_cons_self g0 rest, c, cp, hf, h⟩

end MIDAS

namespace MIDAS

/-! ## Properties of the Python split -/

lemma pySplit_ne_nil (sep : Char) (l : List Char) : pySplit sep l ≠ [] := by
  cases l with
  | nil => simp [pySplit]
  | cons c rest =>
    rcases hc : pySplit sep rest with - | ⟨grp, gs⟩
    · exact absurd hc (pySplit_ne_nil sep rest)
    · simp only [pySplit, hc]
      split <;> simp

lemma pySplit_no_sep (sep : Char) (l : List Char) (h : sep ∉ l) : pySplit sep l = [l] := by
  induction l with
  | nil => rfl
  | cons c rest ih =>
    have hc : ¬ c = sep := fun hcs => h (hcs ▸ List.mem_cons_self c rest)
    have hr : sep ∉ rest := fun hs => h (List.mem_cons_of_mem c hs)
    simp only [pySplit, ih hr]
    rw [if_neg hc]

lemma pySplit_len_of_sep (sep : Char) (l : List Char) (h : sep ∈ l) :
    2 ≤ (pySplit sep l).length := by
  induction l with
  | nil => exact absurd h (List.not_mem_nil sep)
  | cons c rest ih =>
    rcases hc : pySplit sep rest with - | ⟨grp, gs⟩
    · exact absurd hc (pySplit_ne_nil sep rest)
    · simp only [pySplit, hc]
      by_cases hcs : c = sep
      · rw [if_pos hcs]
        simp
      · rw [if_neg hcs]
        rcases List.mem_cons.mp h with h' | hrest
        · exact absurd h'.symm hcs
        · have h2 := ih hrest
          rw [hc] at h2
          simpa using h2

/-- The last group of `pySplit` is the maximal separator-free suffix:
the whole string when the separator is absent, otherwise the part after
the last separator occurrence. -/
lemma pySplit_last_spec (sep : Char) (l : List Char) :
    (sep ∉ l → (pySplit sep l).getLastD [] = l) ∧
    (sep ∈ l → ∃ pre, l = pre ++ sep :: (pySplit sep l).getLastD [] ∧
      sep ∉ (pySplit sep l).getLastD []) := by
  induction l with
  | nil => exact ⟨fun _ => rfl, fun h => absurd h (List.not_mem_nil sep)⟩
  | cons c rest ih =>
    constructor
    · intro h
      rw [pySplit_no_sep sep _ h]
      rfl
    · intro h
      by_cases hcs : c = sep
      · subst hcs
        have hsp : pySplit c (c :: rest) = [] :: pySplit c rest := by
          rcases hc : pySplit c rest with - | ⟨grp, gs⟩
          · exact absurd hc (pySplit_ne_nil c rest)
          · simp [pySplit, hc]
        have hgl : (pySplit c (c :: rest)).getLastD [] = (pySplit c rest).getLastD [] := by
          rw [hsp, List.getLastD_cons]
        rw [hgl]
        by_cases hrest : c ∈ rest
        · obtain ⟨pre, hpre, hnot⟩ := ih.2 hrest
          exact ⟨c :: pre, by rw [List.cons_append, ← hpre], hnot⟩
        · rw [ih.1 hrest]
          exact ⟨[], rfl, hrest⟩
      · have hrest : sep ∈ rest := by
          rcases List.mem_cons.mp h with h' | h'
          · exact absurd h'.symm hcs
          · exact h'
        rcases hc : pySplit sep rest with - | ⟨grp, gs⟩
        · exact absurd hc (pySplit_ne_nil sep rest)
        have hgs : gs ≠ [] := by
          intro hgs
          have h2 := pySplit_len_of_sep sep rest hrest
          rw [hc, hgs] at h2
          simp at h2
        have hsp : pySplit sep (c :: rest) = (c :: grp) :: gs := by
          simp only [pySplit, hc]
          rw [if_neg hcs]
        have hgl : (pySplit sep (c :: rest)).getLastD [] = (pySplit sep rest).getLastD [] := by
          rw [hsp, hc, List.getLastD_cons, List.getLastD_cons]
          rcases gs with - | ⟨x, xs⟩
          · exact absurd rfl hgs
          · rw [List.getLastD_cons, List.getLastD_cons]
        rw [hgl]
        obtain ⟨pre, hpre, hnot⟩ := ih.2 hrest
        exact ⟨c :: pre, by rw [List.cons_append, ← hpre], hnot⟩

/-- Under the data-model invariants, a site contained in gene `g` is
routed to the classifier on `g`'s codon, with `g`'s processed id
installed. -/
lemma annotate_contained (s : SnpRec) (genes : List Gene) (genome : Genome)
    (hgenes : GenesSorted genes) (hov : NoOverlap genes)
    (hval : ∀ g ∈ genes, ValidGene genome g) (hallele : s.ref_allele ≠ 'N')
    (g : Gene) (hg : g ∈ genes) (hcont : GeneContains g s.ref_id s.ref_pos) :
    ∃ c, fetch_ref_codon (init_site s) g genome = some (c, gene_rel_pos (init_site s) g % 3) ∧
      c.length = 3 ∧ (∀ x ∈ c, x ∈ nucl) ∧
      annotate_site (init_site s) genes genome 0 =
        classify_site { init_site s with gene_id := pySplitLast '|' g.gene_id } c
          (gene_rel_pos (init_site s) g % 3) := by
  obtain ⟨seq, c, hseq, hfetch, -, hclen, hchars⟩ :=
    fetch_of_valid (init_site s) g genome (hval g hg) hcont
  refine ⟨c, hfetch, hclen, hchars, ?_⟩
  unfold annotate_site annotate_site_run
  rw [if_neg (by simpa [init_site] using hallele)]
  simp only [List.drop_zero]
  rw [annotate_go_found (init_site s) genome genes g hgenes hov hg hcont, hfetch]

end MIDAS

namespace MIDAS

/-- A site contained in a valid gene is annotated successfully, with the
gene's processed id installed. -/
lemma annotate_contained_gene_id (s : SnpRec) (genes : List Gene) (genome : Genome)
    (hgenes : GenesSorted genes) (hov : NoOverlap genes)
    (hval : ∀ g ∈ genes, ValidGene genome g) (hallele : s.ref_allele ≠ 'N')
    (g : Gene) (hg : g ∈ genes) (hcont : GeneContains g s.ref_id s.ref_pos) :
    ∃ r, annotate_site (init_site s) genes genome 0 = some r ∧
      r.gene_id = pySplitLast '|' g.gene_id := by
  obtain ⟨c, hfetch, hclen, hchars, heq⟩ :=
    annotate_contained s genes genome hgenes hov hval hallele g hg hcont
  rw [heq]
  by_cases hN : 'N' ∈ c
  · rw [classify_site_N _ _ _ hN]
    exact ⟨_, rfl, rfl⟩
  · have hch : ∀ x ∈ c, x ∈ alleles := fun x hx =>
      mem_alleles_of_nucl x (hchars x hx) fun hxN => hN (hxN ▸ hx)
    obtain ⟨r, hcls, -, -, -, hgid, -, -⟩ :=
      classify_site_valid _ c _ hclen hch (Nat.mod_lt _ (by omega))
    exact ⟨r, hcls, hgid⟩

/-- C2: with sites sorted by (ref_id, ref_pos), genes sorted by
(accession, start) and non-overlapping, and genes satisfying the data
model, a site whose ref_allele is not 'N' is assigned the unique gene
whose inclusive interval on the matching accession contains its
position, and a site contained in no gene is written as non-coding with
the 'NA' gene sentinel. -/
theorem C2_merge_correctness (sites : List SnpRec) (genes : List Gene) (genome : Genome)
    (hsites : SitesSorted sites) (hgenes : GenesSorted genes) (hov : NoOverlap genes)
    (hval : ∀ g ∈ genes, ValidGene genome g)
    (s : SnpRec) (hmem : s ∈ sites) (hallele : s.ref_allele ≠ 'N') :
    (∀ g ∈ genes, ∀ g' ∈ genes, GeneContains g s.ref_id s.ref_pos →
      GeneContains g' s.ref_id s.ref_pos → g = g') ∧
    (∀ g ∈ genes, GeneContains g s.ref_id s.ref_pos →
      ∃ r, annotate_site (init_site s) genes genome 0 = some r ∧
        r.gene_id = pySplitLast '|' g.gene_id) ∧
    ((∀ g ∈ genes, ¬ GeneContains g s.ref_id s.ref_pos) →
      ∃ r, annotate_site (init_site s) genes genome 0 = some r ∧
        r.site_type = "NC" ∧ r.gene_id = "NA") := by
  refine ⟨contains_unique genes hov s.ref_id s.ref_pos, ?_, ?_⟩
  · intro g hg hcont
    exact annotate_contained_gene_id s genes genome hgenes hov hval hallele g hg hcont
  · intro hnone
    unfold annotate_site annotate_site_run
    rw [if_neg (by simpa [init_site] using hallele)]
    simp only [List.drop_zero]
    rw [annotate_go_not_found (init_site s) genome genes hnone]
    exact ⟨_, rfl, rfl, rfl⟩

/-- Witness for C2 at the spec's scenario: the site at position 4 of
`chr1` is assigned gene `g1`, and a site at position 10 of a gene-free
stretch is non-coding. -/
theorem C2_witness :
    (∃ r, annotate_site (init_site ⟨"chr1", 4, 'A'⟩)
        [⟨"chr1", 1, 9, '+', "g1"⟩] [("chr1", "ATGAAATAA".data)] 0 = some r ∧
      r.gene_id = pySplitLast '|' "g1") ∧
    (∃ r, annotate_site (init_site ⟨"chr2", 10, 'A'⟩)
        [⟨"chr1", 1, 9, '+', "g1"⟩] [("chr1", "ATGAAATAA".data)] 0 = some r ∧
      r.site_type = "NC" ∧ r.gene_id = "NA") := by
  have hval : ∀ g ∈ ([⟨"chr1", 1, 9, '+', "g1"⟩] : List Gene),
      ValidGene [("chr1", "ATGAAATAA".data)] g := by
    intro g hg
    simp only [List.mem_singleton] at hg
    subst hg
    exact ⟨"ATGAAATAA".data, rfl, by decide, by decide, by decide, by decide, by decide⟩
  constructor
  · exact (C2_merge_correctness [⟨"chr1", 4, 'A'⟩] _ _
      (by simp [SitesSorted]) (by simp [GenesSorted]) (by simp [NoOverlap]) hval
      ⟨"chr1", 4, 'A'⟩ (by simp) (by decide)).2.1 ⟨"chr1", 1, 9, '+', "g1"⟩ (by simp)
      ⟨rfl, by decide, by decide⟩
  · refine (C2_merge_correctness [⟨"chr2", 10, 'A'⟩] _ _
      (by simp [SitesSorted]) (by simp [GenesSorted]) (by simp [NoOverlap]) hval
      ⟨"chr2", 10, 'A'⟩ (by simp) (by decide)).2.2 ?_
    intro g hg
    simp only [List.mem_singleton] at hg
    subst hg
    rintro ⟨hacc, -, -⟩
    exact absurd hacc (by decide)

/-- C10: the gene id written for a site assigned to a gene is the
substring of the gene record's `gene_id` after its last `'|'` (the
whole id when it contains none), not the stored id verbatim. -/
theorem C10_gene_id_last_segment (genes : List Gene) (genome : Genome)
    (hgenes : GenesSorted genes) (hov : NoOverlap genes)
    (hval : ∀ g ∈ genes, ValidGene genome g)
    (s : SnpRec) (hallele : s.ref_allele ≠ 'N')
    (g : Gene) (hg : g ∈ genes) (hcont : GeneContains g s.ref_id s.ref_pos) :
    ∃ r, annotate_site (init_site s) genes genome 0 = some r ∧
      ('|' ∈ g.gene_id.data → ∃ pre, g.gene_id.data = pre ++ '|' :: r.gene_id.data ∧
        '|' ∉ r.gene_id.data) ∧
      ('|' ∉ g.gene_id.data → r.gene_id = g.gene_id) := by
  obtain ⟨r, hann, hgid⟩ :=
    annotate_contained_gene_id s genes genome hgenes hov hval hallele g hg hcont
  have hdata : r.gene_id.data = (pySplit '|' g.gene_id.data).getLastD [] := by
    rw [hgid]
    rfl
  refine ⟨r, hann, ?_, ?_⟩
  · intro hbar
    obtain ⟨pre, hpre, hnot⟩ := (pySplit_last_spec '|' g.gene_id.data).2 hbar
    rw [← hdata] at hpre hnot
    exact ⟨pre, hpre, hnot⟩
  · intro hnobar
    have hlast := (pySplit_last_spec '|' g.gene_id.data).1 hnobar
    rw [← hdata] at hlast
    exact String.toList_inj.mp hlast

/-- Witness for C10: gene id `"g|foo"` is written as `"foo"`. -/
theorem C10_witness :
    ∃ r, annotate_site (init_site ⟨"chr1", 4, 'A'⟩)
        [⟨"chr1", 1, 9, '+', "g|foo"⟩] [("chr1", "ATGAAATAA".data)] 0 = some r ∧
      (∃ pre, "g|foo".data = pre ++ '|' :: r.gene_id.data ∧ '|' ∉ r.gene_id.data) := by
  have hval : ∀ g ∈ ([⟨"chr1", 1, 9, '+', "g|foo"⟩] : List Gene),
      ValidGene [("chr1", "ATGAAATAA".data)] g := by
    intro g hg
    simp only [List.mem_singleton] at hg
    subst hg
    exact ⟨"ATGAAATAA".data, rfl, by decide, by decide, by decide, by decide, by decide⟩
  obtain ⟨r, hann, hbar, -⟩ := C10_gene_id_last_segment _ _
    (by simp [GenesSorted]) (by simp [NoOverlap]) hval
    ⟨"chr1", 4, 'A'⟩ (by decide) ⟨"chr1", 1, 9, '+', "g|foo"⟩ (by simp)
    ⟨rfl, by decide, by decide⟩
  exact ⟨r, hann, hbar (by decide)⟩

end MIDAS

namespace MIDAS

lemma set_get_self (c : List Char) (pos : Nat) (hlen : c.length = 3) (hpos : pos < c.length) :
    c.set pos (c.get ⟨pos, hpos⟩) = c := by
  obtain ⟨b0, b1, b2, rfl⟩ := List.length_eq_three.mp hlen
  have h3 : pos < 3 := by simpa using hpos
  interval_cases pos <;> rfl

/-- C3 counterexample: on the spec's own scenario (codon `"AAA"`, site
allele `'A'` at offset 0) the output row has site_type `"1D"` but
`snp_A` is `"SYN"`, not the claimed sentinel `"NA"`. -/
theorem C3_counterexample :
    (annotate_site (init_site ⟨"chr1", 4, 'A'⟩) [⟨"chr1", 1, 9, '+', "g1"⟩]
        [("chr1", "ATGAAATAA".data)] 0).map
      (fun r => (r.site_type, r.ref_allele, r.snp_types 'A')) = some ("1D", 'A', "SYN") ∧
    ("SYN" : String) ≠ "NA" := by
  exact ⟨rfl, by decide⟩

/-- C3 (amended): in a row whose site_type is a degeneracy class every
snp_X column is `"SYN"` or `"NS"` — the column for the allele equal to
the reference codon's base at the codon offset is `"SYN"`, not `"NA"` —
and all four snp_X columns are `"NA"` whenever site_type is `"N"` or
`"NC"`. -/
theorem C3_amended_snp_columns :
    (∀ (snp : SnpRec) (genes : List Gene) (genome : Genome) (gi : Nat) (r : Site),
      annotate_site (init_site snp) genes genome gi = some r →
        ((r.site_type = "N" ∨ r.site_type = "NC") → ∀ a, r.snp_types a = "NA") ∧
        ((r.site_type = "1D" ∨ r.site_type = "2D" ∨ r.site_type = "3D" ∨ r.site_type = "4D") →
          ∀ a ∈ alleles, r.snp_types a = "SYN" ∨ r.snp_types a = "NS")) ∧
    (∀ (site : Site) (c : List Char) (pos : Nat), c.length = 3 →
      (∀ x ∈ c, x ∈ alleles) → ∀ hpos : pos < c.length,
      ∃ r, classify_site site c pos = some r ∧ r.snp_types (c.get ⟨pos, hpos⟩) = "SYN") := by
  constructor
  · intro snp genes genome gi r h
    unfold annotate_site annotate_site_run at h
    by_cases hNa : (init_site snp).ref_allele = 'N'
    · rw [if_pos hNa] at h
      simp only [Option.some.injEq] at h
      have hstype : r.site_type = "N" := by rw [← h]
      have hsnp : ∀ a, r.snp_types a = "NA" := fun a => by rw [← h]; rfl
      refine ⟨fun _ a => hsnp a, ?_⟩
      rw [hstype]
      rintro (ht | ht | ht | ht) <;> exact absurd ht (by decide)
    · rw [if_neg hNa] at h
      rcases annotate_go_cases _ _ _ r h with heq | ⟨g, -, c, cp, -, hcls⟩
      · have hstype : r.site_type = "NC" := by rw [heq]; rfl
        have hsnp : ∀ a, r.snp_types a = "NA" := fun a => by rw [heq]; rfl
        refine ⟨fun _ a => hsnp a, ?_⟩
        rw [hstype]
        rintro (ht | ht | ht | ht) <;> exact absurd ht (by decide)
      · obtain ⟨-, -, -, -, hbranch⟩ := classify_success_shape _ _ _ _ hcls
        rcases hbranch with ⟨-, htype, hsnp⟩ | ⟨-, ⟨n, htype⟩, hsnp⟩
        · refine ⟨fun _ a => by rw [hsnp]; rfl, ?_⟩
          rw [htype]
          rintro (ht | ht | ht | ht) <;> exact absurd ht (by decide)
        · refine ⟨?_, fun _ => hsnp⟩
          rw [htype]
          rintro (ht | ht)
          · exact absurd ht (typeD_ne n "N" (by decide))
          · exact absurd ht (typeD_ne n "NC" (by decide))
  · intro site c pos hlen hc hpos
    obtain ⟨r, hcls, -, -, -, -, hsnps, -⟩ :=
      classify_site_valid site c pos hlen hc (by omega)
    refine ⟨r, hcls, ?_⟩
    rw [hsnps _ (hc _ (List.get_mem c pos hpos)), set_get_self c pos hlen hpos, if_pos rfl]

/-- Witness for C3 (amended): a ref_allele-'N' site has all snp columns
`"NA"`; classifying codon `"AAA"` at offset 0 marks allele `'A'` (the
codon's reference base) `"SYN"`. -/
theorem C3_witness :
    (∃ r, annotate_site (init_site ⟨"chr1", 2, 'N'⟩) [] [] 0 = some r ∧
      ∀ a, r.snp_types a = "NA") ∧
    (∃ r, classify_site (init_site ⟨"chr1", 1, 'A'⟩) ['A', 'A', 'A'] 0 = some r ∧
      r.snp_types 'A' = "SYN") := by
  constructor
  · refine ⟨⟨"chr1", 2, 'N', "NA", "N", fun _ => "NA"⟩, rfl, ?_⟩
    exact (C3_amended_snp_columns.1 ⟨"chr1", 2, 'N'⟩ [] [] 0 _ rfl).1 (Or.inl rfl)
  · exact C3_amended_snp_columns.2 (init_site ⟨"chr1", 1, 'A'⟩) ['A', 'A', 'A'] 0 rfl
      (by decide) (by decide)

/-- C4 counterexample: a site inside gene `"g|foo"` whose reference
codon contains `'N'` is written with site_type `"N"` but gene_id
`"foo"`, not the claimed sentinel `"NA"` (the code installs the gene id
before classifying). -/
theorem C4_counterexample :
    (annotate_site (init_site ⟨"c", 4, 'A'⟩) [⟨"c", 1, 9, '+', "g|foo"⟩]
        [("c", "ATGNAATAA".data)] 0).map (fun r => (r.site_type, r.gene_id))
      = some ("N", "foo") ∧ ("foo" : String) ≠ "NA" := by
  exact ⟨rfl, by decide⟩

/-- C4 (amended): gene_id is `"NA"` for every row whose site_type is
`"NC"` and for every site whose ref_allele is `'N'`; but a site inside
a gene whose reference codon contains `'N'` keeps the owning gene's
processed id while its site_type becomes `"N"`. -/
theorem C4_amended_gene_id_sentinel :
    (∀ (snp : SnpRec) (genes : List Gene) (genome : Genome) (gi : Nat) (r : Site),
      annotate_site (init_site snp) genes genome gi = some r →
        ((r.site_type = "NC" → r.gene_id = "NA") ∧
         (snp.ref_allele = 'N' → r.site_type = "N" ∧ r.gene_id = "NA"))) ∧
    (∀ (s : SnpRec) (genes : List Gene) (genome : Genome) (g : Gene),
      GenesSorted genes → NoOverlap genes → (∀ g' ∈ genes, ValidGene genome g') →
      s.ref_allele ≠ 'N' → g ∈ genes → GeneContains g s.ref_id s.ref_pos →
      ∀ c cp, fetch_ref_codon (init_site s) g genome = some (c, cp) → 'N' ∈ c →
        annotate_site (init_site s) genes genome 0 =
          some { init_site s with gene_id := pySplitLast '|' g.gene_id, site_type := "N" }) := by
  constructor
  · intro snp genes genome gi r h
    unfold annotate_site annotate_site_run at h
    by_cases hNa : (init_site snp).ref_allele = 'N'
    · rw [if_pos hNa] at h
      simp only [Option.some.injEq] at h
      have hstype : r.site_type = "N" := by rw [← h]
      have hgid : r.gene_id = "NA" := by rw [← h]; rfl
      refine ⟨fun ht => ?_, fun _ => ⟨hstype, hgid⟩⟩
      rw [hstype] at ht
      exact absurd ht (by decide)
    · rw [if_neg hNa] at h
      rcases annotate_go_cases _ _ _ r h with heq | ⟨g, -, c, cp, -, hcls⟩
      · exact ⟨fun _ => by rw [heq]; rfl, fun hsnp => absurd hsnp hNa⟩
      · obtain ⟨hgid, -, -, -, hbranch⟩ := classify_success_shape _ _ _ _ hcls
        rcases hbranch with ⟨-, htype, -⟩ | ⟨-, ⟨n, htype⟩, -⟩
        · exact ⟨fun ht => absurd (htype ▸ ht : ("N" : String) = "NC") (by decide),
            fun hsnp => absurd hsnp hNa⟩
        · exact ⟨fun ht => absurd (htype ▸ ht) (typeD_ne n "NC" (by decide)),
            fun hsnp => absurd hsnp hNa⟩
  · intro s genes genome g hgenes hov hval hallele hg hcont c cp hf hN
    obtain ⟨c', hfetch, -, -, heq⟩ :=
      annotate_contained s genes genome hgenes hov hval hallele g hg hcont
    rw [hfetch] at hf
    simp only [Option.some.injEq, Prod.mk.injEq] at hf
    obtain ⟨rfl, rfl⟩ := hf
    rw [heq, classify_site_N _ _ _ hN]

/-- Witness for C4 (amended): a ref_allele-'N' site gets site_type
`"N"` and gene_id `"NA"`, and the in-gene ambiguous-codon site of the
counterexample keeps gene id `"foo"`. -/
theorem C4_witness :
    (∃ r, annotate_site (init_site ⟨"c", 1, 'N'⟩) [] [] 0 = some r ∧
      r.site_type = "N" ∧ r.gene_id = "NA") ∧
    annotate_site (init_site ⟨"c", 4, 'A'⟩) [⟨"c", 1, 9, '+', "g|foo"⟩]
        [("c", "ATGNAATAA".data)] 0 =
      some { init_site ⟨"c", 4, 'A'⟩ with
               gene_id := pySplitLast '|' "g|foo", site_type := "N" } := by
  constructor
  · refine ⟨⟨"c", 1, 'N', "NA", "N", fun _ => "NA"⟩, rfl, ?_⟩
    exact (C4_amended_gene_id_sentinel.1 ⟨"c", 1, 'N'⟩ [] [] 0 _ rfl).2 rfl
  · refine C4_amended_gene_id_sentinel.2 ⟨"c", 4, 'A'⟩ _ _ ⟨"c", 1, 9, '+', "g|foo"⟩
      (by simp [GenesSorted]) (by simp [NoOverlap]) ?_ (by decide) (by simp)
      ⟨rfl, by decide, by decide⟩ "NAA".data 0 rfl (by decide)
    intro g' hg'
    simp only [List.mem_singleton] at hg'
    subst hg'
    exact ⟨"ATGNAATAA".data, rfl, by decide, by decide, by decide, by decide, by decide⟩

end MIDAS

namespace MIDAS

/-- C6: for a site inside a gene, the codon locator computes
`gene_pos = ref_pos - start` on the `'+'` strand and
`gene_pos = end - ref_pos` on the `'-'` strand, sets
`codon_offset = gene_pos % 3`, and returns the 3 characters of the
oriented gene sequence at 0-based indices
`[gene_pos - codon_offset, gene_pos - codon_offset + 3)`. -/
theorem C6_codon_locator (s : Site) (g : Gene) (genome : Genome)
    (hv : ValidGene genome g) (hcont : GeneContains g s.ref_id s.ref_pos)
    (hstrand : g.strand = '+' ∨ g.strand = '-') :
    ∃ seq, get_gene_seq g genome = some seq ∧
      fetch_ref_codon s g genome =
        some ((seq.drop (gene_rel_pos s g - gene_rel_pos s g % 3)).take 3,
          gene_rel_pos s g % 3) ∧
      ((seq.drop (gene_rel_pos s g - gene_rel_pos s g % 3)).take 3).length = 3 ∧
      gene_rel_pos s g =
        if g.strand = '+' then s.ref_pos - g.start else g.end_ - s.ref_pos := by
  obtain ⟨seq, c, hseq, hfetch, hceq, hclen, -⟩ := fetch_of_valid s g genome hv hcont
  subst hceq
  exact ⟨seq, hseq, hfetch, hclen, rfl⟩

/-- Witness for C6: position 4 in the `'+'` gene over `"ATGAAATAA"`:
`gene_pos = 3`, offset 0, codon is the slice at indices 3 to 6. -/
theorem C6_witness :
    ∃ seq, get_gene_seq ⟨"chr1", 1, 9, '+', "g1"⟩ [("chr1", "ATGAAATAA".data)] = some seq ∧
      fetch_ref_codon ⟨"chr1", 4, 'A', "NA", "NC", fun _ => "NA"⟩ ⟨"chr1", 1, 9, '+', "g1"⟩
          [("chr1", "ATGAAATAA".data)] = some ((seq.drop 3).take 3, 0) ∧
      ((seq.drop 3).take 3).length = 3 ∧
      (3 : Nat) = if ('+' : Char) = '+' then 4 - 1 else 9 - 4 := by
  exact C6_codon_locator ⟨"chr1", 4, 'A', "NA", "NC", fun _ => "NA"⟩ ⟨"chr1", 1, 9, '+', "g1"⟩
    [("chr1", "ATGAAATAA".data)]
    ⟨"ATGAAATAA".data, rfl, by decide, by decide, by decide, by decide, by decide⟩
    ⟨rfl, by decide, by decide⟩ (Or.inl rfl)

/-- Reversing a 3-slice: the `n`-window at `k` of a list, reversed, is
the `n`-window of the reversed list at the mirrored offset. -/
lemma reverse_slice_take {α : Type} (S : List α) (k n : Nat) (hk : k + n ≤ S.length) :
    ((S.drop k).take n).reverse = (S.reverse.drop (S.length - n - k)).take n := by
  conv_lhs => rw [List.reverse_take, List.reverse_drop]
  rw [List.length_drop, List.drop_take]
  have e1 : (S.length - k) - (S.length - k - n) = n := by omega
  have e2 : S.length - k - n = S.length - n - k := by omega
  rw [e1, e2]

end MIDAS

namespace MIDAS

/-- C8: mirroring a `'+'` gene with coding sequence S over `{A,C,G,T}`
to the `'-'` strand (whose oriented sequence is reverse-complement(S)),
codon extraction at the mirrored gene position
`gene_pos' = gene_length - 1 - gene_pos` (realised by the same genomic
coordinate `p`) yields the complementary codon: the `'-'` codon is the
reverse complement of the `'+'` codon. -/
theorem C8_strand_symmetry (genome : Genome) (contig : List Char) (acc gid gid' : String)
    (st en p : Nat)
    (hlook : genome.lookup acc = some contig)
    (hchars : ∀ x ∈ (contig.drop (st - 1)).take (en - (st - 1)), x ∈ alleles)
    (h1 : 1 ≤ st) (hse : st ≤ en) (hlen : en ≤ contig.length)
    (hdiv : (en - st + 1) % 3 = 0) (hp1 : st ≤ p) (hp2 : p ≤ en) :
    ∃ c c',
      fetch_ref_codon (init_site ⟨acc, p, 'A'⟩) ⟨acc, st, en, '+', gid⟩ genome
        = some (c, (p - st) % 3) ∧
      fetch_ref_codon (init_site ⟨acc, p, 'A'⟩) ⟨acc, st, en, '-', gid'⟩ genome
        = some (c', (en - p) % 3) ∧
      en - p = (en - st + 1) - 1 - (p - st) ∧
      rev_comp c = some c' := by
  set S := (contig.drop (st - 1)).take (en - (st - 1)) with hSdef
  have hSnucl : ∀ x ∈ S, x ∈ nucl := fun x hx => alleles_sub_nucl x (hchars x hx)
  have hupper : S.map Char.toUpper = S := by
    rw [show S.map Char.toUpper = S.map id from
      List.map_congr_left fun a ha => toUpper_nucl a (hSnucl a ha)]
    exact List.map_id S
  have hSlen : S.length = en - st + 1 := by
    rw [hSdef]
    simp only [List.length_take, List.length_drop]
    omega
  have hseqP : get_gene_seq ⟨acc, st, en, '+', gid⟩ genome = some S := by
    simp only [get_gene_seq, hlook, Option.bind_eq_bind, Option.some_bind]
    rw [if_neg (by decide : ¬ ('+' : Char) = '-')]
    show (pure (S.map Char.toUpper) : Option (List Char)) = some S
    rw [hupper]
    rfl
  have hseqM : get_gene_seq ⟨acc, st, en, '-', gid'⟩ genome = some (S.reverse.map compFn) := by
    simp only [get_gene_seq, hlook, Option.bind_eq_bind, Option.some_bind]
    rw [if_pos trivial]
    show rev_comp (S.map Char.toUpper) = some (S.reverse.map compFn)
    rw [hupper]
    exact rev_comp_eq S hSnucl
  have hfP : fetch_ref_codon (init_site ⟨acc, p, 'A'⟩) ⟨acc, st, en, '+', gid⟩ genome
      = some ((S.drop ((p - st) - (p - st) % 3)).take 3, (p - st) % 3) := by
    simp only [fetch_ref_codon, hseqP, Option.bind_eq_bind, Option.some_bind]
    rfl
  have hfM : fetch_ref_codon (init_site ⟨acc, p, 'A'⟩) ⟨acc, st, en, '-', gid'⟩ genome
      = some (((S.reverse.map compFn).drop ((en - p) - (en - p) % 3)).take 3,
        (en - p) % 3) := by
    simp only [fetch_ref_codon, hseqM, Option.bind_eq_bind, Option.some_bind]
    rfl
  have hcchars : ∀ x ∈ (S.drop ((p - st) - (p - st) % 3)).take 3, x ∈ nucl :=
    fun x hx => hSnucl x (List.mem_of_mem_drop (List.mem_of_mem_take hx))
  have hk : ((p - st) - (p - st) % 3) + 3 ≤ S.length := by
    rw [hSlen]
    omega
  have hkey : (((S.drop ((p - st) - (p - st) % 3)).take 3).reverse).map compFn
      = ((S.reverse.map compFn).drop ((en - p) - (en - p) % 3)).take 3 := by
    rw [reverse_slice_take S _ 3 hk, List.map_take, List.map_drop]
    have e : S.length - 3 - ((p - st) - (p - st) % 3) = (en - p) - (en - p) % 3 := by
      rw [hSlen]
      omega
    rw [e]
  refine ⟨(S.drop ((p - st) - (p - st) % 3)).take 3,
    ((S.reverse.map compFn).drop ((en - p) - (en - p) % 3)).take 3,
    hfP, hfM, by omega, ?_⟩
  rw [rev_comp_eq _ hcchars, hkey]

/-- Witness for C8: gene interval 1..9 over `"ATGAAATAA"`, site at
position 4: the `'+'` codon and the `'-'` codon at the mirrored gene
position are reverse complements. -/
theorem C8_witness :
    ∃ c c',
      fetch_ref_codon (init_site ⟨"c", 4, 'A'⟩) ⟨"c", 1, 9, '+', "g1"⟩
          [("c", "ATGAAATAA".data)] = some (c, (4 - 1) % 3) ∧
      fetch_ref_codon (init_site ⟨"c", 4, 'A'⟩) ⟨"c", 1, 9, '-', "g2"⟩
          [("c", "ATGAAATAA".data)] = some (c', (9 - 4) % 3) ∧
      9 - 4 = (9 - 1 + 1) - 1 - (4 - 1) ∧
      rev_comp c = some c' := by
  exact C8_strand_symmetry [("c", "ATGAAATAA".data)] "ATGAAATAA".data "c" "g1" "g2" 1 9 4
    rfl (by decide) (by decide) (by decide) (by decide) (by decide) (by decide) (by decide)

end MIDAS
